import Mathlib

/-!
# Verification of the Secret Rudolph game core

Shallow embedding of the gameplay-runtime core of the repository
(`src/_utils/utils.ts`, `src/game/scenes/RudolphGame.ts`, and the game-code
validator of the Firestore utilities), together with theorems settling the
specification claims. Entropy consumption is modelled by threading an
explicit stream of bytes (`List Nat`, each entry the value of one random
byte); each Fisher-Yates shuffle is modelled over an explicit function from
the loop index `i` to the drawn index `j = Math.floor(Math.random() * (i + 1))`.
-/

namespace SecretRudolph

/-! ## `src/_utils/utils.ts` -/

/-- Little-endian value of a byte list, embedding
`randomBytes.reduce((acc, byte, i) => acc + byte * 256 ** i, 0)`. -/
def byteVal : List Nat → Nat
  | [] => 0
  | b :: bs => b + 256 * byteVal bs

/-- `range = max - min + 1` from `generateSecureRandomInt`, as a natural
number (the claims concern `min ≤ max`, where it is positive). -/
def gsriRange (min max : Int) : Nat := (max - min + 1).toNat

/-- Fuelled base-256 ceiling logarithm (the fuel argument only serves
structural recursion; `clog256 n n` is total for the uses below and agrees
with `Nat.clog 256 n`, see `clog256_eq_clog`). -/
def clog256 : Nat → Nat → Nat
  | 0, _ => 0
  | fuel + 1, n => if n ≤ 1 then 0 else clog256 fuel ((n + 255) / 256) + 1

/-- `bytesNeeded = Math.ceil(Math.log2(range) / 8)`, i.e. the ceiling of the
base-256 logarithm of `range`: the least `b` with `256 ^ b ≥ range` (the
source evaluates the real-valued expression; it is embedded as its exact
mathematical value). -/
def gsriBytesNeeded (min max : Int) : Nat :=
  clog256 (gsriRange min max) (gsriRange min max)

/-- `maxValid = 256 ** bytesNeeded - (256 ** bytesNeeded % range)`. -/
def gsriMaxValid (min max : Int) : Nat :=
  256 ^ gsriBytesNeeded min max - 256 ^ gsriBytesNeeded min max % gsriRange min max

/-- The `do … while (randomValue >= maxValid)` rejection loop of
`generateSecureRandomInt`: each attempt draws `b` fresh bytes from the
stream, and a value `≥ maxValid` is rejected and redrawn. `fuel` bounds the
number of attempts; `generateSecureRandomInt` supplies enough fuel for any
finite stream, so `none` only means the stream ran out of bytes. The result
is paired with the unconsumed rest of the stream. -/
def gsriLoop (min : Int) (rN b mv : Nat) : Nat → List Nat → Option (Int × List Nat)
  | 0, _ => none
  | fuel + 1, s =>
    if (s.take b).length < b then none
    else
      let v := byteVal (s.take b)
      if v < mv then some (min + ((v % rN : Nat) : Int), s.drop b)
      else gsriLoop min rN b mv fuel (s.drop b)

/-- `generateSecureRandomInt(min, max)` over an explicit entropy stream. -/
def generateSecureRandomInt (min max : Int) (s : List Nat) : Option (Int × List Nat) :=
  gsriLoop min (gsriRange min max) (gsriBytesNeeded min max) (gsriMaxValid min max)
    (s.length + 1) s

/-- The 62-symbol alphabet of `generateUniqueHash`:
`"ABCDEFGHIJKLMNOPQRSTUVWXYZabcdefghijklmnopqrstuvwxyz0123456789"`. -/
def hashChars : List Char :=
  "ABCDEFGHIJKLMNOPQRSTUVWXYZabcdefghijklmnopqrstuvwxyz0123456789".data

/-- `maxValid = 256 - (256 % chars.length)` from `generateUniqueHash`. -/
def hashMaxValid : Nat := 256 - 256 % hashChars.length

/-- Accept/reject loop of `generateUniqueHash`: a byte `< maxValid`
contributes the character `chars[byte % chars.length]`, a byte `≥ maxValid`
is discarded (not reused); the loop stops once `need` characters have been
accepted. The source draws raw bytes in batches of `2 * length`, but the
produced string depends only on the byte sequence in order, which is what
is modelled; `none` means the stream ran out. -/
def hashLoop : List Nat → Nat → List Char → Option (List Char × List Nat)
  | s, 0, acc => some (acc, s)
  | [], _ + 1, _ => none
  | byte :: s, need + 1, acc =>
    if byte < hashMaxValid then
      hashLoop s need (acc ++ [hashChars.getD (byte % hashChars.length) ' '])
    else hashLoop s (need + 1) acc

/-- `generateUniqueHash(length)` over an explicit entropy stream (the
source's default argument is `length = 10`). -/
def generateUniqueHash (s : List Nat) (length : Nat) : Option (String × List Nat) :=
  (hashLoop s length []).map fun p => (⟨p.1⟩, p.2)

/-- Swap the entries of `l` at positions `i` and `j`, embedding
`[shuffled[i], shuffled[j]] = [valueJ, valueI]`; the source's
strict-null-check guard (skip if either read is `undefined`) becomes a
no-op when an index is out of bounds. -/
def listSwap {α : Type _} (l : List α) (i j : Nat) : List α :=
  match l[i]?, l[j]? with
  | some vi, some vj => (l.set i vj).set j vi
  | _, _ => l

/-- The descending loop of `shuffleArray`: swaps at positions
`i, i - 1, …, 1`; `js i` is the index drawn at loop position `i` (in the
source, uniform on `[0, i]`). -/
def fisherYatesAux {α : Type _} (js : Nat → Nat) : Nat → List α → List α
  | 0, l => l
  | i + 1, l => fisherYatesAux js i (listSwap l (i + 1) (js (i + 1)))

/-- `shuffleArray` over an explicit sequence of Fisher-Yates draws. The
source copies its input (`[...array]`) before swapping, so the input value
is untouched — immutability is inherent in this pure embedding. -/
def shuffleArray {α : Type _} (l : List α) (js : Nat → Nat) : List α :=
  fisherYatesAux js (l.length - 1) l

/-! ## `validateGameCode` (Firestore utilities) -/

/-- Membership in the character class `[A-Za-z0-9]`. -/
def isGameCodeChar (c : Char) : Bool :=
  ('A' ≤ c && c ≤ 'Z') || ('a' ≤ c && c ≤ 'z') || ('0' ≤ c && c ≤ '9')

/-- The test `GAME_CODE_REGEX.test(gameCode)` with
`GAME_CODE_REGEX = /^[A-Za-z0-9]{10}$/`: the anchored ten-fold repetition of
a character class holds exactly of the ten-character strings whose every
character is in the class. -/
def gameCodeRegexTest (code : String) : Bool :=
  code.length == 10 && code.data.all isGameCodeChar

/-- `validateGameCode` from the Firestore utilities: throws (modelled as
`Except.error` carrying the thrown message) on a code failing the regex
test, returns normally otherwise. -/
def validateGameCode (code : String) : Except String Unit :=
  if gameCodeRegexTest code then Except.ok ()
  else Except.error "Invalid game code format. Must be 10 alphanumeric characters."

/-! ## `src/game/scenes/RudolphGame.ts` -/

/-- The numeric fields of `GAME_CONFIG` relevant to the claims. -/
structure GameConfig where
  WIDTH : Nat
  HEIGHT : Nat
  PLAY_TIME : Nat
  SPAWN_DELAY_LIKED : Nat
  SPAWN_DELAY_DISLIKED : Nat
  SCORE_LIKED_ITEM : Int
  SCORE_DISLIKED_ITEM : Int

/-- `GAME_CONFIG` from the scene module. -/
def GAME_CONFIG : GameConfig :=
  { WIDTH := 365, HEIGHT := 500, PLAY_TIME := 45000, SPAWN_DELAY_LIKED := 800,
    SPAWN_DELAY_DISLIKED := 1000, SCORE_LIKED_ITEM := 10, SCORE_DISLIKED_ITEM := -5 }

/-- `ItemPool`: sprites are identified by their creation index within the
pool. `pool` is the free list with the list head playing the role of the
JavaScript array's end (the shared `push`/`pop` site); `active` keeps the
source's `active` array order; `nextId` counts the sprites constructed so
far, so the sprites this pool ever constructed are `0, …, nextId - 1`. -/
structure ItemPool where
  pool : List Nat
  active : List Nat
  nextId : Nat
deriving Repr, DecidableEq

/-- The `ItemPool` constructor: pre-creates `poolSize` sprites in the free
list (the last-created one at the pop end). -/
def ItemPool.init (poolSize : Nat) : ItemPool :=
  ⟨(List.range poolSize).reverse, [], poolSize⟩

/-- `acquire`: pop a sprite off the free list, constructing a fresh one when
the free list is exhausted; push it onto the active list and return it.
(The position, texture, visibility, body and display-size configuration has
no bearing on list membership and is not part of the pool state.) -/
def ItemPool.acquire (p : ItemPool) : Nat × ItemPool :=
  match p.pool with
  | [] => (p.nextId, ⟨[], p.active ++ [p.nextId], p.nextId + 1⟩)
  | e :: rest => (e, ⟨rest, p.active ++ [e], p.nextId⟩)

/-- `active.splice(active.indexOf(item), 1)`: remove the first occurrence. -/
def removeFirst : List Nat → Nat → List Nat
  | [], _ => []
  | x :: xs, e => if x = e then xs else x :: removeFirst xs e

/-- `release`: only when `active.indexOf(item) > -1` is the sprite removed
from the active list and pushed back onto the free list; otherwise both
lists are left exactly as they were. -/
def ItemPool.release (p : ItemPool) (e : Nat) : ItemPool :=
  if e ∈ p.active then ⟨e :: p.pool, removeFirst p.active e, p.nextId⟩ else p

/-- One externally-triggered pool operation. -/
inductive PoolOp where
  | acquire
  | release (e : Nat)

/-- Apply one pool operation (the acquired sprite goes to the caller). -/
def ItemPool.step (p : ItemPool) : PoolOp → ItemPool
  | .acquire => (p.acquire).2
  | .release e => p.release e

/-- Run a sequence of acquire/release calls. -/
def ItemPool.run (p : ItemPool) (ops : List PoolOp) : ItemPool :=
  ops.foldl ItemPool.step p

/-- Pool membership invariant: the free and active lists are duplicate-free
and disjoint, and together they hold exactly the sprites constructed so
far. -/
def ItemPool.WF (p : ItemPool) : Prop :=
  p.pool.Nodup ∧ p.active.Nodup ∧ (∀ e, e ∈ p.pool → e ∉ p.active) ∧
    (∀ e, e < p.nextId ↔ (e ∈ p.pool ∨ e ∈ p.active))

/-- Cycling selector state: the fields `shuffledLikedItems` +
`likedItemIndex` (and identically `shuffledDislikedItems` +
`dislikedItemIndex`) of the scene. -/
structure Selector where
  perm : List String
  cursor : Nat
deriving Repr, DecidableEq

/-- `getNextLikedItem` / `getNextDislikedItem` (the two methods have the
same body, each on its own selector fields): read `perm[cursor]`, advance
the cursor modulo the length, and replace the permutation with a fresh
shuffle of itself when the cursor wraps to `0`. `js` supplies the
Fisher-Yates draws of that reshuffle. The source's non-null assertion
`…[index]!` is modelled by `getD` with a junk default; the claims evaluate
it only with the cursor in bounds. -/
def selectorNext (s : Selector) (js : Nat → Nat) : String × Selector :=
  let item := s.perm.getD s.cursor ""
  let idx := (s.cursor + 1) % s.perm.length
  if idx = 0 then (item, ⟨shuffleArray s.perm js, 0⟩)
  else (item, ⟨s.perm, idx⟩)

/-- `n` successive `selectorNext` calls; the reshuffle of call number `k`
(0-based, counted from the first argument) uses the draws `jsf k`. Returns
the drawn keys in order together with the final selector state. -/
def selectorDraws (jsf : Nat → Nat → Nat) : Nat → Selector → Nat → List String × Selector
  | _, s, 0 => ([], s)
  | k, s, n + 1 =>
    let (x, s') := selectorNext s (jsf k)
    let (xs, s'') := selectorDraws jsf (k + 1) s' n
    (x :: xs, s'')

/-- A sprite reference at the scene level: which category's pool constructed
it (`true` = liked) and its creation index there. Distinct pairs are
distinct sprite objects. -/
abbrev Sprite := Bool × Nat

/-- The engine-scoped events the scene emits through
`this.game.events.emit`. -/
inductive GameEvent where
  | updateItemList (names : List String)
  | updateDislikes (names : List String)
  | gameOverEvent (score : Int)
deriving Repr, DecidableEq

/-- `Set.prototype.add` followed by `Array.from`: a JavaScript `Set`
iterates in insertion order, so the materialised array gains a new element
at its end and is unchanged when the element is already present. -/
def setInsert (l : List String) (x : String) : List String :=
  if x ∈ l then l else l ++ [x]

/-- The `RudolphGame` scene state the claims touch. A timer field is `true`
while the corresponding `TimerEvent` is pending (armed and not destroyed);
`emitted` logs the engine-scoped emissions in order; `itemName` is the
per-sprite `setData("itemName", …)` store. -/
structure Scene where
  score : Int
  gameOver : Bool
  gameTimerPending : Bool
  likedSpawnTimerPending : Bool
  dislikedSpawnTimerPending : Bool
  likedPool : ItemPool
  dislikedPool : ItemPool
  likedGroup : List Sprite
  dislikedGroup : List Sprite
  collectedLiked : List String
  collectedDisliked : List String
  itemName : Sprite → String
  likedSel : Selector
  dislikedSel : Selector
  emitted : List GameEvent

/-- The scene state at class initialisation: score `0`, no timers armed, no
collected items; the pools do not exist before `startGame` (optional fields
in the source) and are modelled as capacity-0 pools. -/
def Scene.init : Scene :=
  { score := 0, gameOver := false, gameTimerPending := false,
    likedSpawnTimerPending := false, dislikedSpawnTimerPending := false,
    likedPool := ItemPool.init 0, dislikedPool := ItemPool.init 0,
    likedGroup := [], dislikedGroup := [],
    collectedLiked := [], collectedDisliked := [],
    itemName := fun _ => "", likedSel := ⟨[], 0⟩, dislikedSel := ⟨[], 0⟩,
    emitted := [] }

/-- `updateScore`. -/
def Scene.updateScore (sc : Scene) (points : Int) : Scene :=
  { sc with score := sc.score + points }

/-- `collectLikedItem` (player overlaps a liked sprite): release the sprite
to the liked pool, add `SCORE_LIKED_ITEM`, record the sprite's item name in
the collected-liked set, and emit `update-itemList` with `Array.from` of
that set. -/
def Scene.collectLikedItem (sc : Scene) (s : Sprite) : Scene :=
  let n := sc.itemName s
  let sc1 := { sc with likedPool := sc.likedPool.release s.2 }
  let sc2 := sc1.updateScore GAME_CONFIG.SCORE_LIKED_ITEM
  let sc3 := { sc2 with collectedLiked := setInsert sc2.collectedLiked n }
  { sc3 with emitted := sc3.emitted ++ [GameEvent.updateItemList sc3.collectedLiked] }

/-- `hitDislikedItem` (player collides with a disliked sprite): release the
sprite to the disliked pool, add `SCORE_DISLIKED_ITEM`, record the sprite's
item name in the collected-disliked set, and emit `update-dislikes`. -/
def Scene.hitDislikedItem (sc : Scene) (s : Sprite) : Scene :=
  let n := sc.itemName s
  let sc1 := { sc with dislikedPool := sc.dislikedPool.release s.2 }
  let sc2 := sc1.updateScore GAME_CONFIG.SCORE_DISLIKED_ITEM
  let sc3 := { sc2 with collectedDisliked := setInsert sc2.collectedDisliked n }
  { sc3 with emitted := sc3.emitted ++ [GameEvent.updateDislikes sc3.collectedDisliked] }

/-- `itemHitsPlatform`: a falling sprite reaching the ground is released to
the pool of whichever category group contains it, and nothing else
happens. -/
def Scene.itemHitsPlatform (sc : Scene) (s : Sprite) : Scene :=
  if s ∈ sc.likedGroup then { sc with likedPool := sc.likedPool.release s.2 }
  else if s ∈ sc.dislikedGroup then { sc with dislikedPool := sc.dislikedPool.release s.2 }
  else sc

/-- `handleGameOver`: destroy the countdown timer and both spawn timers, set
the terminal flag, and emit `game-over` carrying the final score. (The
animation stop, UI text and registry writes have no bearing on the modelled
state; `changeScene` starts the next scene.) -/
def Scene.handleGameOver (sc : Scene) : Scene :=
  let sc1 := { sc with gameTimerPending := false }
  let sc2 := { sc1 with likedSpawnTimerPending := false, dislikedSpawnTimerPending := false }
  let sc3 := { sc2 with gameOver := true }
  { sc3 with emitted := sc3.emitted ++ [GameEvent.gameOverEvent sc3.score] }

/-- `spawnLikedItem` (the uniformly drawn x-coordinate does not affect the
modelled state): pull the next key from the liked selector, acquire a
liked-pool sprite, store the key as its `itemName` data and texture, and
add it to the liked physics group (`Group.add` is a no-op on a sprite
already in the group). -/
def Scene.spawnLikedItem (sc : Scene) (js : Nat → Nat) : Scene :=
  let p := selectorNext sc.likedSel js
  let q := sc.likedPool.acquire
  { sc with
    likedSel := p.2, likedPool := q.2,
    itemName := fun t => if t = (true, q.1) then p.1 else sc.itemName t,
    likedGroup :=
      if (true, q.1) ∈ sc.likedGroup then sc.likedGroup
      else sc.likedGroup ++ [(true, q.1)] }

/-- `spawnDislikedItem`: as `spawnLikedItem`, on the disliked selector, pool
and group. -/
def Scene.spawnDislikedItem (sc : Scene) (js : Nat → Nat) : Scene :=
  let p := selectorNext sc.dislikedSel js
  let q := sc.dislikedPool.acquire
  { sc with
    dislikedSel := p.2, dislikedPool := q.2,
    itemName := fun t => if t = (false, q.1) then p.1 else sc.itemName t,
    dislikedGroup :=
      if (false, q.1) ∈ sc.dislikedGroup then sc.dislikedGroup
      else sc.dislikedGroup ++ [(false, q.1)] }

/-- `startGame({likes, dislikes})`: seed both selectors with freshly
shuffled copies of the key lists at cursor `0`, create both pools with
capacity 20, and arm the two repeating spawn timers and the one-shot
countdown timer. -/
def Scene.startGame (sc : Scene) (likes dislikes : List String)
    (jsL jsD : Nat → Nat) : Scene :=
  { sc with
    likedSel := ⟨shuffleArray likes jsL, 0⟩,
    dislikedSel := ⟨shuffleArray dislikes jsD, 0⟩,
    likedPool := ItemPool.init 20, dislikedPool := ItemPool.init 20,
    likedSpawnTimerPending := true, dislikedSpawnTimerPending := true,
    gameTimerPending := true }

/-- One cooperative callback interleaved during a running session. -/
inductive SessionEvent where
  | spawnLiked (js : Nat → Nat)
  | spawnDisliked (js : Nat → Nat)
  | catchLiked (s : Sprite)
  | hitDisliked (s : Sprite)
  | platformHit (s : Sprite)

/-- Dispatch one session callback. -/
def Scene.step (sc : Scene) : SessionEvent → Scene
  | .spawnLiked js => sc.spawnLikedItem js
  | .spawnDisliked js => sc.spawnDislikedItem js
  | .catchLiked s => sc.collectLikedItem s
  | .hitDisliked s => sc.hitDislikedItem s
  | .platformHit s => sc.itemHitsPlatform s

/-- Run a session's worth of interleaved callbacks. -/
def Scene.runEvents (sc : Scene) (es : List SessionEvent) : Scene :=
  es.foldl Scene.step sc

/-- Number of liked catches in a session trace. -/
def countCatches (es : List SessionEvent) : Nat :=
  es.countP fun e => match e with | .catchLiked _ => true | _ => false

/-- Number of disliked hits in a session trace. -/
def countHits (es : List SessionEvent) : Nat :=
  es.countP fun e => match e with | .hitDisliked _ => true | _ => false

/-! ## Properties of `generateSecureRandomInt` -/

lemma clog256_eq_clog : ∀ (fuel n : Nat), n ≤ fuel → clog256 fuel n = Nat.clog 256 n := by
  intro fuel
  induction fuel with
  | zero =>
    intro n hn
    have hn0 : n = 0 := by omega
    subst hn0
    simp [clog256, Nat.clog_of_right_le_one]
  | succ f ih =>
    intro n hn
    by_cases h1 : n ≤ 1
    · simp [clog256, h1, Nat.clog_of_right_le_one h1]
    · have h2 : 2 ≤ n := by omega
      have hdiv : (n + 255) / 256 < n := by
        rw [Nat.div_lt_iff_lt_mul (by norm_num)]
        omega
      rw [show clog256 (f + 1) n = clog256 f ((n + 255) / 256) + 1 by simp [clog256, h1]]
      rw [ih ((n + 255) / 256) (by omega)]
      rw [Nat.clog_of_two_le (by norm_num) h2]
      have h3 : n + 256 - 1 = n + 255 := by omega
      rw [h3]

lemma gsriRange_pos {min max : Int} (h : min ≤ max) : 0 < gsriRange min max := by
  unfold gsriRange
  omega

lemma gsriBytesNeeded_eq_clog (min max : Int) :
    gsriBytesNeeded min max = Nat.clog 256 (gsriRange min max) :=
  clog256_eq_clog (gsriRange min max) (gsriRange min max) le_rfl

lemma gsriRange_le_pow (min max : Int) :
    gsriRange min max ≤ 256 ^ gsriBytesNeeded min max := by
  rw [gsriBytesNeeded_eq_clog]
  exact (Nat.le_pow_iff_clog_le (by norm_num)).mpr le_rfl

lemma gsriBytesNeeded_minimal {min max : Int} {b' : Nat}
    (hb' : b' < gsriBytesNeeded min max) : 256 ^ b' < gsriRange min max := by
  rw [gsriBytesNeeded_eq_clog] at hb'
  by_contra hle
  push_neg at hle
  exact absurd ((Nat.le_pow_iff_clog_le (by norm_num)).mp hle) (by omega)

lemma gsriMaxValid_pos {min max : Int} (h : min ≤ max) : 0 < gsriMaxValid min max := by
  have h1 := gsriRange_pos h
  have h2 := gsriRange_le_pow min max
  have h3 : 256 ^ gsriBytesNeeded min max % gsriRange min max < gsriRange min max :=
    Nat.mod_lt _ h1
  unfold gsriMaxValid
  omega

lemma gsriMaxValid_eq_mul (min max : Int) :
    gsriMaxValid min max
      = gsriRange min max * (256 ^ gsriBytesNeeded min max / gsriRange min max) := by
  have h2 := Nat.div_add_mod (256 ^ gsriBytesNeeded min max) (gsriRange min max)
  unfold gsriMaxValid
  omega

lemma gsriLoop_succ (min : Int) (rN b mv f : Nat) (s : List Nat) :
    gsriLoop min rN b mv (f + 1) s
      = if (s.take b).length < b then none
        else if byteVal (s.take b) < mv then
          some (min + ((byteVal (s.take b) % rN : Nat) : Int), s.drop b)
        else gsriLoop min rN b mv f (s.drop b) := rfl

lemma gsriLoop_fuel_irrel (min : Int) (rN b mv : Nat) (hb : 1 ≤ b) :
    ∀ (len : Nat) (s : List Nat), s.length ≤ len → ∀ f : Nat, s.length < f →
      gsriLoop min rN b mv f s = gsriLoop min rN b mv (s.length + 1) s := by
  intro len
  induction len with
  | zero =>
    intro s hs f hf
    have hs0 : s = [] := by
      cases s with
      | nil => rfl
      | cons a t => simp at hs
    subst hs0
    cases f with
    | zero => omega
    | succ f =>
      have hcond : ((List.nil (α := Nat)).take b).length < b := by
        simp
        omega
      rw [show ([] : List Nat).length + 1 = 0 + 1 from rfl]
      rw [gsriLoop_succ, gsriLoop_succ, if_pos hcond, if_pos hcond]
  | succ len ih =>
    intro s hs f hf
    cases f with
    | zero => omega
    | succ f =>
      rw [gsriLoop_succ, gsriLoop_succ]
      by_cases hcond : (s.take b).length < b
      · rw [if_pos hcond, if_pos hcond]
      · rw [if_neg hcond, if_neg hcond]
        by_cases hacc : byteVal (s.take b) < mv
        · rw [if_pos hacc, if_pos hacc]
        · rw [if_neg hacc, if_neg hacc]
          have hbs : b ≤ s.length := by
            have := List.length_take b s
            omega
          rw [ih (s.drop b) (by rw [List.length_drop]; omega) f
            (by rw [List.length_drop]; omega)]
          rw [ih (s.drop b) (by rw [List.length_drop]; omega) s.length
            (by rw [List.length_drop]; omega)]

lemma generateSecureRandomInt_accept (min max : Int) (bytes rest : List Nat)
    (hlen : bytes.length = gsriBytesNeeded min max)
    (hv : byteVal bytes < gsriMaxValid min max) :
    generateSecureRandomInt min max (bytes ++ rest)
      = some (min + ((byteVal bytes % gsriRange min max : Nat) : Int), rest) := by
  have htake : (bytes ++ rest).take (gsriBytesNeeded min max) = bytes :=
    List.take_left' hlen
  have hdrop : (bytes ++ rest).drop (gsriBytesNeeded min max) = rest :=
    List.drop_left' hlen
  unfold generateSecureRandomInt
  rw [gsriLoop_succ, htake, hdrop]
  rw [if_neg (by omega), if_pos hv]

lemma generateSecureRandomInt_reject (min max : Int) (h : min ≤ max)
    (bytes rest : List Nat)
    (hlen : bytes.length = gsriBytesNeeded min max)
    (hv : gsriMaxValid min max ≤ byteVal bytes) :
    generateSecureRandomInt min max (bytes ++ rest)
      = generateSecureRandomInt min max rest := by
  have hmv := gsriMaxValid_pos h
  have hb : 1 ≤ gsriBytesNeeded min max := by
    by_contra hb0
    push_neg at hb0
    have hz : gsriBytesNeeded min max = 0 := by omega
    rw [hz] at hlen
    have hbytes : bytes = [] := by
      cases bytes with
      | nil => rfl
      | cons a t => simp at hlen
    rw [hbytes] at hv
    simp [byteVal] at hv
    omega
  have htake : (bytes ++ rest).take (gsriBytesNeeded min max) = bytes :=
    List.take_left' hlen
  have hdrop : (bytes ++ rest).drop (gsriBytesNeeded min max) = rest :=
    List.drop_left' hlen
  unfold generateSecureRandomInt
  rw [gsriLoop_succ, htake, hdrop]
  rw [if_neg (by omega), if_neg (by omega)]
  have hlen2 : (bytes ++ rest).length = gsriBytesNeeded min max + rest.length := by
    rw [List.length_append, hlen]
  rw [hlen2]
  exact gsriLoop_fuel_irrel min (gsriRange min max) (gsriBytesNeeded min max)
    (gsriMaxValid min max) hb rest.length rest le_rfl
    (gsriBytesNeeded min max + rest.length) (by omega)

lemma gsriLoop_some_shape (min : Int) (rN b mv : Nat) :
    ∀ (f : Nat) (s : List Nat) (r : Int) (rest : List Nat),
      gsriLoop min rN b mv f s = some (r, rest) →
      ∃ v : Nat, r = min + ((v % rN : Nat) : Int) := by
  intro f
  induction f with
  | zero =>
    intro s r rest hsome
    simp [gsriLoop] at hsome
  | succ f ih =>
    intro s r rest hsome
    rw [gsriLoop_succ] at hsome
    by_cases hcond : (s.take b).length < b
    · rw [if_pos hcond] at hsome
      exact absurd hsome (by simp)
    · rw [if_neg hcond] at hsome
      by_cases hacc : byteVal (s.take b) < mv
      · rw [if_pos hacc, Option.some.injEq, Prod.mk.injEq] at hsome
        exact ⟨byteVal (s.take b), hsome.1.symm⟩
      · rw [if_neg hacc] at hsome
        exact ih (s.drop b) r rest hsome

lemma card_range_mul_filter_mod (n k t : Nat) (hn : 0 < n) (ht : t < n) :
    ((Finset.range (n * k)).filter (fun v => v % n = t)).card = k := by
  have hcard : (Finset.range k).card
      = ((Finset.range (n * k)).filter (fun v => v % n = t)).card := by
    apply Finset.card_bij (fun i _ => t + n * i)
    · intro i hi
      rw [Finset.mem_range] at hi
      rw [Finset.mem_filter, Finset.mem_range]
      refine ⟨?_, ?_⟩
      · calc t + n * i < n + n * i := by omega
          _ = n * (i + 1) := by ring
          _ ≤ n * k := Nat.mul_le_mul_left n (by omega)
      · rw [Nat.add_mul_mod_self_left]
        exact Nat.mod_eq_of_lt ht
    · intro i hi j hj hij
      have h1 : n * i = n * j := by omega
      exact Nat.eq_of_mul_eq_mul_left hn h1
    · intro v hv
      rw [Finset.mem_filter, Finset.mem_range] at hv
      refine ⟨v / n, ?_, ?_⟩
      · rw [Finset.mem_range, Nat.div_lt_iff_lt_mul hn]
        rw [Nat.mul_comm]
        exact hv.1
      · have hdm := Nat.div_add_mod v n
        have hmod : v % n = t := hv.2
        omega
  rw [Finset.card_range] at hcard
  exact hcard.symm

/-- **C1.** For `min ≤ max`, `generateSecureRandomInt` follows the spec's
rejection-sampling algorithm: `bytesNeeded` is the smallest `b` with
`256 ^ b ≥ range` (`range = max - min + 1`); with the drawn bytes
interpreted in a fixed (little-endian) order, a value `< maxValid`
(`maxValid = 256 ^ b - (256 ^ b % range)`, by definition of
`gsriMaxValid`) is accepted and yields `min + (value % range)`, while a
value `≥ maxValid` is rejected and the draw repeats on the remaining
stream; and every integer `r ∈ [min, max]` has the same number
`maxValid / range` of accepted `b`-byte values mapping to it, so all
results are equally likely over a uniform byte stream. -/
theorem generateSecureRandomInt_uniform (min max : Int) (h : min ≤ max) :
    (gsriRange min max ≤ 256 ^ gsriBytesNeeded min max ∧
      ∀ b' : Nat, b' < gsriBytesNeeded min max → 256 ^ b' < gsriRange min max) ∧
    (∀ bytes rest : List Nat, bytes.length = gsriBytesNeeded min max →
      (byteVal bytes < gsriMaxValid min max →
        generateSecureRandomInt min max (bytes ++ rest)
          = some (min + ((byteVal bytes % gsriRange min max : Nat) : Int), rest)) ∧
      (gsriMaxValid min max ≤ byteVal bytes →
        generateSecureRandomInt min max (bytes ++ rest)
          = generateSecureRandomInt min max rest)) ∧
    (∀ r : Int, min ≤ r → r ≤ max →
      ((Finset.range (gsriMaxValid min max)).filter
          (fun v => min + ((v % gsriRange min max : Nat) : Int) = r)).card
        = gsriMaxValid min max / gsriRange min max) := by
  refine ⟨⟨gsriRange_le_pow min max, fun b' hb' => gsriBytesNeeded_minimal hb'⟩,
    fun bytes rest hlen =>
      ⟨fun hv => generateSecureRandomInt_accept min max bytes rest hlen hv,
        fun hv => generateSecureRandomInt_reject min max h bytes rest hlen hv⟩,
    ?_⟩
  intro r hr1 hr2
  have hrn := gsriRange_pos h
  have hcast : ((gsriRange min max : Nat) : Int) = max - min + 1 := by
    unfold gsriRange
    omega
  have ht : (r - min).toNat < gsriRange min max := by omega
  have hpred : ∀ v : Nat,
      (min + ((v % gsriRange min max : Nat) : Int) = r)
        ↔ (v % gsriRange min max = (r - min).toNat) := by
    intro v
    constructor <;> intro hv <;> omega
  rw [show ((Finset.range (gsriMaxValid min max)).filter
        (fun v => min + ((v % gsriRange min max : Nat) : Int) = r))
      = ((Finset.range (gsriMaxValid min max)).filter
        (fun v => v % gsriRange min max = (r - min).toNat)) from
    Finset.filter_congr fun v _ => hpred v]
  rw [gsriMaxValid_eq_mul min max]
  rw [card_range_mul_filter_mod (gsriRange min max)
    (256 ^ gsriBytesNeeded min max / gsriRange min max) ((r - min).toNat) hrn ht]
  rw [Nat.mul_div_cancel_left _ hrn]

/-- Witness for C1: at `min = 0`, `max = 9`, exactly
`maxValid / range = 25` of the accepted one-byte values map to the
result `3`. -/
theorem generateSecureRandomInt_uniform_witness :
    ((Finset.range (gsriMaxValid 0 9)).filter
        (fun v => (0 : Int) + ((v % gsriRange 0 9 : Nat) : Int) = 3)).card
      = gsriMaxValid 0 9 / gsriRange 0 9 :=
  (generateSecureRandomInt_uniform 0 9 (by decide)).2.2 3 (by decide) (by decide)

/-- **C2.** For `min ≤ max` every value `generateSecureRandomInt` returns is
an integer `r` with `min ≤ r ≤ max` (negative ranges and ranges spanning
zero included); and for `min = max` the call returns exactly that value
with the entropy stream untouched (zero bytes are drawn). -/
theorem generateSecureRandomInt_range_inclusive :
    (∀ (min max : Int) (s : List Nat) (r : Int) (rest : List Nat), min ≤ max →
        generateSecureRandomInt min max s = some (r, rest) → min ≤ r ∧ r ≤ max) ∧
    (∀ (min : Int) (s : List Nat), generateSecureRandomInt min min s = some (min, s)) := by
  constructor
  · intro min max s r rest hmm hsome
    obtain ⟨v, rfl⟩ := gsriLoop_some_shape min (gsriRange min max)
      (gsriBytesNeeded min max) (gsriMaxValid min max) (s.length + 1) s r rest hsome
    have h1 : v % gsriRange min max < gsriRange min max :=
      Nat.mod_lt _ (gsriRange_pos hmm)
    have h2 : ((gsriRange min max : Nat) : Int) = max - min + 1 := by
      unfold gsriRange
      omega
    constructor
    · have h3 : (0 : Int) ≤ ((v % gsriRange min max : Nat) : Int) := Int.ofNat_nonneg _
      omega
    · omega
  · intro min s
    have h0 : gsriRange min min = 1 := by
      unfold gsriRange
      omega
    have h1 : gsriBytesNeeded min min = 0 := by
      unfold gsriBytesNeeded
      rw [h0]
      rfl
    have h2 : gsriMaxValid min min = 1 := by
      unfold gsriMaxValid
      rw [h1, h0]
      rfl
    unfold generateSecureRandomInt
    rw [h0, h1, h2]
    simp [gsriLoop, byteVal]

/-- Witness for C2: `0 ≤ 5 ≤ 9` for a concrete accepted draw, and
`min = max = 3` returns `3` with the stream unconsumed. -/
theorem generateSecureRandomInt_range_inclusive_witness :
    ((0 : Int) ≤ 5 ∧ (5 : Int) ≤ 9) ∧ generateSecureRandomInt 3 3 [9] = some (3, [9]) :=
  ⟨generateSecureRandomInt_range_inclusive.1 0 9 [5] 5 [] (by decide) (by decide),
    generateSecureRandomInt_range_inclusive.2 3 [9]⟩

/-! ## Properties of `shuffleArray` -/

lemma getElem_cons_set_perm {α : Type _} :
    ∀ (t : List α) (k : Nat) (h : k < t.length) (a : α),
      List.Perm (t[k] :: t.set k a) (a :: t) := by
  intro t
  induction t with
  | nil =>
    intro k h a
    simp at h
  | cons b s ih =>
    intro k h a
    cases k with
    | zero =>
      simp only [List.getElem_cons_zero, List.set_cons_zero]
      exact List.Perm.swap a b s
    | succ k =>
      have h' : k < s.length := by simpa using h
      simp only [List.getElem_cons_succ, List.set_cons_succ]
      exact ((List.Perm.swap b (s[k]) (s.set k a)).trans
        ((ih k h' a).cons b)).trans (List.Perm.swap a b s)

lemma set_set_perm {α : Type _} (l : List α) (i j : Nat) (hi : i < l.length)
    (hj : j < l.length) : List.Perm ((l.set i l[j]).set j l[i]) l := by
  by_cases hij : i = j
  · subst hij
    rw [List.set_set]
    exact (List.perm_cons l[i]).mp (getElem_cons_set_perm l i hi l[i])
  · have hjm : j < (l.set i l[j]).length := by simpa using hj
    have h1 := getElem_cons_set_perm (l.set i l[j]) j hjm l[i]
    have h2 : (l.set i l[j])[j] = l[j] := List.getElem_set_ne hij hjm
    have h3 := getElem_cons_set_perm l i hi l[j]
    rw [h2] at h1
    exact (List.perm_cons l[j]).mp (h1.trans h3)

lemma listSwap_perm {α : Type _} (l : List α) (i j : Nat) :
    List.Perm (listSwap l i j) l := by
  unfold listSwap
  cases hi : l[i]? with
  | none => exact List.Perm.refl l
  | some vi =>
    cases hj : l[j]? with
    | none => exact List.Perm.refl l
    | some vj =>
      obtain ⟨hi', rfl⟩ := List.getElem?_eq_some_iff.mp hi
      obtain ⟨hj', rfl⟩ := List.getElem?_eq_some_iff.mp hj
      exact set_set_perm l i j hi' hj'

lemma fisherYatesAux_perm {α : Type _} (js : Nat → Nat) :
    ∀ (i : Nat) (l : List α), List.Perm (fisherYatesAux js i l) l := by
  intro i
  induction i with
  | zero =>
    intro l
    exact List.Perm.refl l
  | succ i ih =>
    intro l
    exact (ih (listSwap l (i + 1) (js (i + 1)))).trans (listSwap_perm l (i + 1) (js (i + 1)))

lemma shuffleArray_perm {α : Type _} (l : List α) (js : Nat → Nat) :
    List.Perm (shuffleArray l js) l :=
  fisherYatesAux_perm js (l.length - 1) l

/-- **C3.** `shuffleArray` returns a list with the same length and the same
multiset of elements as its input (it is a permutation of the input); the
input itself is unmodified (the source copies it with `[...array]` before
swapping, and the embedding is a pure function of the input value); empty
and singleton inputs come back as unchanged copies, the swap loop running
zero times. -/
theorem shuffleArray_permutation_spec {α : Type _} (l : List α) (js : Nat → Nat) :
    List.Perm (shuffleArray l js) l ∧
    (shuffleArray l js : Multiset α) = (l : Multiset α) ∧
    (shuffleArray l js).length = l.length ∧
    (l.length ≤ 1 → shuffleArray l js = l) := by
  refine ⟨shuffleArray_perm l js, Multiset.coe_eq_coe.mpr (shuffleArray_perm l js),
    (shuffleArray_perm l js).length_eq, ?_⟩
  intro hlen
  unfold shuffleArray
  have h0 : l.length - 1 = 0 := by omega
  rw [h0]
  rfl

/-- Witness for C3 at concrete inputs: a four-element shuffle is a
permutation, and a singleton input is returned unchanged. -/
theorem shuffleArray_permutation_spec_witness :
    List.Perm (shuffleArray [1, 2, 3, 4] (fun _ => 0)) [1, 2, 3, 4] ∧
    shuffleArray ["x"] (fun _ => 0) = ["x"] :=
  ⟨(shuffleArray_permutation_spec [1, 2, 3, 4] (fun _ => 0)).1,
    (shuffleArray_permutation_spec ["x"] (fun _ => 0)).2.2.2 (by decide)⟩

/-! ## Properties of the cycling item selector -/

lemma getD_eq_getElem_of_lt {α : Type _} (l : List α) (n : Nat) (d : α)
    (h : n < l.length) : l.getD n d = l[n] := by
  simp [List.getD_eq_getElem?_getD, List.getElem?_eq_getElem h]

lemma selectorDraws_zero (jsf : Nat → Nat → Nat) (k : Nat) (s : Selector) :
    selectorDraws jsf k s 0 = ([], s) := rfl

lemma selectorDraws_succ (jsf : Nat → Nat → Nat) (k : Nat) (s : Selector) (n : Nat) :
    selectorDraws jsf k s (n + 1)
      = ((selectorNext s (jsf k)).1
            :: (selectorDraws jsf (k + 1) (selectorNext s (jsf k)).2 n).1,
         (selectorDraws jsf (k + 1) (selectorNext s (jsf k)).2 n).2) := rfl

lemma selectorNext_wrap (s : Selector) (js : Nat → Nat)
    (h : s.cursor + 1 = s.perm.length) :
    selectorNext s js = (s.perm.getD s.cursor "", ⟨shuffleArray s.perm js, 0⟩) := by
  unfold selectorNext
  have h0 : (s.cursor + 1) % s.perm.length = 0 := by
    rw [h, Nat.mod_self]
  simp [h0]

lemma selectorNext_no_wrap (s : Selector) (js : Nat → Nat)
    (h : s.cursor + 1 < s.perm.length) :
    selectorNext s js = (s.perm.getD s.cursor "", ⟨s.perm, s.cursor + 1⟩) := by
  unfold selectorNext
  have h1 : (s.cursor + 1) % s.perm.length = s.cursor + 1 := Nat.mod_eq_of_lt h
  rw [h1, if_neg (by omega)]

lemma selectorDraws_cycle (jsf : Nat → Nat → Nat) :
    ∀ (m : Nat) (s : Selector) (k : Nat), 0 < m → s.cursor + m = s.perm.length →
      selectorDraws jsf k s m
        = (s.perm.drop s.cursor, ⟨shuffleArray s.perm (jsf (k + m - 1)), 0⟩) := by
  intro m
  induction m with
  | zero =>
    intro s k hm hcur
    omega
  | succ m ih =>
    intro s k hm hcur
    have hc : s.cursor < s.perm.length := by omega
    cases m with
    | zero =>
      rw [selectorDraws_succ, selectorNext_wrap s (jsf k) (by omega), selectorDraws_zero]
      rw [getD_eq_getElem_of_lt s.perm s.cursor "" hc]
      rw [List.drop_eq_getElem_cons hc]
      have hd : s.perm.drop (s.cursor + 1) = [] := by
        have he : s.cursor + 1 = s.perm.length := by omega
        rw [he, List.drop_length]
      rw [hd]
      simp
    | succ m =>
      rw [selectorDraws_succ, selectorNext_no_wrap s (jsf k) (by omega)]
      rw [ih ⟨s.perm, s.cursor + 1⟩ (k + 1) (by omega)
        (by show s.cursor + 1 + (m + 1) = s.perm.length; omega)]
      rw [getD_eq_getElem_of_lt s.perm s.cursor "" hc]
      have hidx : k + 1 + (m + 1) - 1 = k + (m + 1 + 1) - 1 := by omega
      rw [List.drop_eq_getElem_cons hc]
      simp [hidx]

/-- **C4 (counterexample).** The claim "over any `n` consecutive calls every
item key appears exactly once" fails on the code: seeding a selector with
the two distinct keys `"A"`, `"B"` and reshuffle draws that put `"B"` first
again at the cycle boundary, the three successive draws are
`["A", "B", "B"]`, so in the window formed by the 2nd and 3rd consecutive
calls the key `"B"` appears twice (and `"A"` not at all). -/
theorem selector_window_repeat_counterexample :
    ((selectorDraws (fun k _ => if k = 1 then 0 else 1) 0 ⟨["A", "B"], 0⟩ 3).1
        = ["A", "B", "B"]) ∧
    ¬ (∀ key ∈ (["A", "B"] : List String),
        ((selectorDraws (fun k _ => if k = 1 then 0 else 1) 0
            ⟨["A", "B"], 0⟩ 3).1.drop 1).count key = 1) := by
  constructor
  · rfl
  · decide

/-- **C4 (amended).** For a selector holding `n` distinct keys, over each
window of `n` consecutive calls that starts at a cycle boundary (cursor
`0`, as after seeding and after every full cycle), every key is handed out
exactly once — the window is exactly the current permutation — and at the
end of the cycle the permutation has been re-randomized: it is replaced by
a fresh shuffle of itself (a permutation of the same keys) with the cursor
back at `0`. -/
theorem selector_cycle_spec (s : Selector) (jsf : Nat → Nat → Nat) (k n : Nat)
    (hn : 0 < n) (hlen : s.perm.length = n) (hcur : s.cursor = 0)
    (hnd : s.perm.Nodup) :
    (selectorDraws jsf k s n).1 = s.perm ∧
    (∀ key ∈ s.perm, (selectorDraws jsf k s n).1.count key = 1) ∧
    (selectorDraws jsf k s n).2.cursor = 0 ∧
    (selectorDraws jsf k s n).2.perm = shuffleArray s.perm (jsf (k + n - 1)) ∧
    List.Perm (selectorDraws jsf k s n).2.perm s.perm := by
  have hcyc := selectorDraws_cycle jsf n s k hn (by omega)
  rw [hcyc, hcur, List.drop_zero]
  exact ⟨rfl, fun key hk => List.count_eq_one_of_mem hnd hk, rfl, rfl,
    shuffleArray_perm s.perm (jsf (k + n - 1))⟩

/-- Witness for the amended C4: a selector seeded with the two distinct
keys `"x"`, `"y"` at cursor `0` hands out exactly `["x", "y"]` over one
cycle. -/
theorem selector_cycle_spec_witness :
    (selectorDraws (fun _ _ => 0) 0 ⟨["x", "y"], 0⟩ 2).1 = ["x", "y"] :=
  (selector_cycle_spec ⟨["x", "y"], 0⟩ (fun _ _ => 0) 0 2 (by decide) (by decide) rfl
    (by decide)).1

/-! ## Properties of `ItemPool` -/

lemma removeFirst_eq_erase : ∀ (l : List Nat) (e : Nat), removeFirst l e = l.erase e := by
  intro l e
  induction l with
  | nil => rfl
  | cons x xs ih =>
    by_cases hx : x = e
    · simp [removeFirst, hx, List.erase_cons]
    · simp [removeFirst, hx, List.erase_cons, ih]

lemma itemPool_init_WF (n : Nat) : (ItemPool.init n).WF := by
  unfold ItemPool.WF ItemPool.init
  refine ⟨?_, List.nodup_nil, ?_, ?_⟩
  · simpa using List.nodup_range n
  · intro e he
    simp
  · intro e
    simp

lemma itemPool_acquire_spec (p : ItemPool) (h : p.WF) :
    (p.acquire).2.WF ∧ (p.acquire).1 ∉ p.active ∧ p.nextId ≤ (p.acquire).2.nextId := by
  obtain ⟨hp, ha, hd, hm⟩ := h
  unfold ItemPool.acquire
  cases hpool : p.pool with
  | nil =>
    simp only [hpool] at hm
    simp only [List.not_mem_nil, false_or] at hm
    have hnew : p.nextId ∉ p.active := fun hmem => by
      have h1 := (hm p.nextId).mpr hmem
      omega
    refine ⟨⟨List.nodup_nil, ?_, ?_, ?_⟩, hnew, Nat.le_succ p.nextId⟩
    · show (p.active ++ [p.nextId]).Nodup
      rw [List.nodup_append]
      refine ⟨ha, List.nodup_singleton _, ?_⟩
      intro a hmem hmem2
      simp at hmem2
      subst hmem2
      exact hnew hmem
    · intro e he
      simp at he
    · intro e
      show e < p.nextId + 1 ↔ e ∈ ([] : List Nat) ∨ e ∈ p.active ++ [p.nextId]
      simp only [List.not_mem_nil, false_or, List.mem_append, List.mem_singleton]
      constructor
      · intro hlt
        by_cases he : e = p.nextId
        · exact Or.inr he
        · exact Or.inl ((hm e).mp (by omega))
      · intro hor
        cases hor with
        | inl hmem =>
          have h2 := (hm e).mpr hmem
          omega
        | inr heq => omega
  | cons a rest =>
    have hnd : (a :: rest).Nodup := hpool ▸ hp
    have hmem_pool : ∀ x, x ∈ p.pool ↔ x = a ∨ x ∈ rest := by
      intro x
      rw [hpool, List.mem_cons]
    have hna : a ∉ p.active := hd a (by rw [hpool]; exact List.mem_cons_self a rest)
    refine ⟨⟨(List.nodup_cons.mp hnd).2, ?_, ?_, ?_⟩, hna, le_rfl⟩
    · show (p.active ++ [a]).Nodup
      rw [List.nodup_append]
      refine ⟨ha, List.nodup_singleton _, ?_⟩
      intro x hmem hmem2
      simp at hmem2
      subst hmem2
      exact hna hmem
    · intro e he he2
      show False
      have hepool : e ∈ p.pool := by
        rw [hpool]
        exact List.mem_cons_of_mem a he
      rw [List.mem_append] at he2
      cases he2 with
      | inl hact => exact hd e hepool hact
      | inr hsing =>
        simp at hsing
        subst hsing
        exact (List.nodup_cons.mp hnd).1 he
    · intro e
      show e < p.nextId ↔ e ∈ rest ∨ e ∈ p.active ++ [a]
      rw [hm e, hmem_pool e, List.mem_append, List.mem_singleton]
      constructor
      · intro hor
        rcases hor with (rfl | hr) | hact
        · exact Or.inr (Or.inr rfl)
        · exact Or.inl hr
        · exact Or.inr (Or.inl hact)
      · intro hor
        rcases hor with hr | hact | rfl
        · exact Or.inl (Or.inr hr)
        · exact Or.inr hact
        · exact Or.inl (Or.inl rfl)

lemma itemPool_release_of_not_active (p : ItemPool) (e : Nat) (h : e ∉ p.active) :
    p.release e = p := by
  unfold ItemPool.release
  rw [if_neg h]

lemma itemPool_release_spec (p : ItemPool) (e : Nat) (h : p.WF) :
    (p.release e).WF ∧ (p.release e).nextId = p.nextId := by
  obtain ⟨hp, ha, hd, hm⟩ := h
  unfold ItemPool.release
  by_cases hmem : e ∈ p.active
  · rw [if_pos hmem, removeFirst_eq_erase]
    refine ⟨⟨?_, ?_, ?_, ?_⟩, rfl⟩
    · show (e :: p.pool).Nodup
      rw [List.nodup_cons]
      exact ⟨fun hep => hd e hep hmem, hp⟩
    · exact List.Nodup.erase e ha
    · intro x hx hx2
      show False
      rw [List.mem_cons] at hx
      rcases hx with rfl | hx
      · exact ((List.Nodup.mem_erase_iff ha).mp hx2).1 rfl
      · exact hd x hx (List.erase_subset _ _ hx2)
    · intro x
      show x < p.nextId ↔ x ∈ e :: p.pool ∨ x ∈ p.active.erase e
      rw [List.mem_cons, List.Nodup.mem_erase_iff ha]
      constructor
      · intro hlt
        rcases (hm x).mp hlt with hpx | hax
        · exact Or.inl (Or.inr hpx)
        · by_cases hxe : x = e
          · exact Or.inl (Or.inl hxe)
          · exact Or.inr ⟨hxe, hax⟩
      · intro hor
        rcases hor with (rfl | hpx) | ⟨hne, hax⟩
        · exact (hm x).mpr (Or.inr hmem)
        · exact (hm x).mpr (Or.inl hpx)
        · exact (hm x).mpr (Or.inr hax)
  · rw [if_neg hmem]
    exact ⟨⟨hp, ha, hd, hm⟩, rfl⟩

lemma itemPool_not_active_after_release (p : ItemPool) (e : Nat) (h : p.WF) :
    e ∉ (p.release e).active := by
  unfold ItemPool.release
  by_cases hmem : e ∈ p.active
  · rw [if_pos hmem]
    show e ∉ removeFirst p.active e
    rw [removeFirst_eq_erase]
    intro hcontra
    exact ((List.Nodup.mem_erase_iff h.2.1).mp hcontra).1 rfl
  · rw [if_neg hmem]
    exact hmem

lemma itemPool_step_WF (p : ItemPool) (op : PoolOp) (h : p.WF) :
    (p.step op).WF ∧ p.nextId ≤ (p.step op).nextId := by
  cases op with
  | acquire =>
    exact ⟨(itemPool_acquire_spec p h).1, (itemPool_acquire_spec p h).2.2⟩
  | release e =>
    have hrel := itemPool_release_spec p e h
    exact ⟨hrel.1, le_of_eq hrel.2.symm⟩

lemma itemPool_run_WF : ∀ (ops : List PoolOp) (p : ItemPool), p.WF →
    (p.run ops).WF ∧ p.nextId ≤ (p.run ops).nextId := by
  intro ops
  induction ops with
  | nil =>
    intro p h
    exact ⟨h, le_rfl⟩
  | cons op tl ih =>
    intro p h
    have h1 := itemPool_step_WF p op h
    have h2 := ih (p.step op) h1.1
    exact ⟨h2.1, le_trans h1.2 h2.2⟩

lemma itemPool_WF_length (p : ItemPool) (h : p.WF) :
    p.pool.length + p.active.length = p.nextId := by
  obtain ⟨hp, ha, hd, hm⟩ := h
  have hnd : (p.pool ++ p.active).Nodup :=
    List.Nodup.append hp ha (fun a hap haa => hd a hap haa)
  have hperm : List.Perm (p.pool ++ p.active) (List.range p.nextId) := by
    rw [List.perm_ext_iff_of_nodup hnd (List.nodup_range _)]
    intro a
    rw [List.mem_append, List.mem_range]
    exact (hm a).symm
  have hlen := hperm.length_eq
  simpa using hlen

/-- **C5.** After any sequence of `acquire`/`release` calls starting from a
freshly constructed pool, every sprite the pool ever constructed
(`e < nextId`) is in exactly one of the free list and the active list; the
free-list size plus the active-list size never drops below the initial
capacity (the pool grows on exhaustion, never shrinks); and `acquire` never
returns a sprite that is already in the active list. -/
theorem itemPool_membership_invariant (cap : Nat) (ops : List PoolOp) :
    (∀ e, e < ((ItemPool.init cap).run ops).nextId →
        ((e ∈ ((ItemPool.init cap).run ops).pool
            ∧ e ∉ ((ItemPool.init cap).run ops).active)
          ∨ (e ∈ ((ItemPool.init cap).run ops).active
            ∧ e ∉ ((ItemPool.init cap).run ops).pool))) ∧
    cap ≤ ((ItemPool.init cap).run ops).pool.length
        + ((ItemPool.init cap).run ops).active.length ∧
    (((ItemPool.init cap).run ops).acquire).1 ∉ ((ItemPool.init cap).run ops).active := by
  have h1 := itemPool_run_WF ops (ItemPool.init cap) (itemPool_init_WF cap)
  obtain ⟨hWF, hnext⟩ := h1
  have hlen := itemPool_WF_length _ hWF
  refine ⟨?_, ?_, (itemPool_acquire_spec _ hWF).2.1⟩
  · intro e he
    obtain ⟨hp, ha, hd, hm⟩ := hWF
    rcases (hm e).mp he with hpe | hae
    · exact Or.inl ⟨hpe, hd e hpe⟩
    · exact Or.inr ⟨hae, fun hpe => hd e hpe hae⟩
  · have hinit : (ItemPool.init cap).nextId = cap := rfl
    omega

/-- Witness for C5: a concrete five-operation run on a capacity-2 pool
keeps the combined list size at least 2. -/
theorem itemPool_membership_invariant_witness :
    2 ≤ ((ItemPool.init 2).run [PoolOp.acquire, PoolOp.release 1, PoolOp.release 1,
          PoolOp.acquire, PoolOp.acquire]).pool.length
        + ((ItemPool.init 2).run [PoolOp.acquire, PoolOp.release 1, PoolOp.release 1,
          PoolOp.acquire, PoolOp.acquire]).active.length :=
  (itemPool_membership_invariant 2 [PoolOp.acquire, PoolOp.release 1, PoolOp.release 1,
    PoolOp.acquire, PoolOp.acquire]).2.1

/-- **C10.** `release` on a sprite that is not in the active list (a sprite
never acquired, a foreign sprite, or one already released) changes neither
the free list nor the active list; consequently, on any reachable pool a
double release equals a single release — it never inserts a duplicate into
the free list. -/
theorem itemPool_release_idempotent (p : ItemPool) (e : Nat) (cap : Nat)
    (ops : List PoolOp) :
    (e ∉ p.active → (p.release e).pool = p.pool ∧ (p.release e).active = p.active) ∧
    ((((ItemPool.init cap).run ops).release e).release e
        = ((ItemPool.init cap).run ops).release e) := by
  constructor
  · intro hmem
    rw [itemPool_release_of_not_active p e hmem]
    exact ⟨rfl, rfl⟩
  · have hWF := (itemPool_run_WF ops (ItemPool.init cap) (itemPool_init_WF cap)).1
    exact itemPool_release_of_not_active _ e
      (itemPool_not_active_after_release _ e hWF)

/-- Witness for C10: releasing a never-acquired sprite into a fresh pool
leaves the free list unchanged. -/
theorem itemPool_release_idempotent_witness :
    ((ItemPool.init 2).release 0).pool = (ItemPool.init 2).pool :=
  ((itemPool_release_idempotent (ItemPool.init 2) 0 2 [PoolOp.acquire]).1 (by decide)).1

/-! ## Properties of the scene state machine -/

/-- Score delta a single session callback applies. -/
def sessionEventDelta : SessionEvent → Int
  | .catchLiked _ => GAME_CONFIG.SCORE_LIKED_ITEM
  | .hitDisliked _ => GAME_CONFIG.SCORE_DISLIKED_ITEM
  | _ => 0

lemma scene_step_frame (sc : Scene) (e : SessionEvent) :
    (sc.step e).gameTimerPending = sc.gameTimerPending ∧
    (sc.step e).likedSpawnTimerPending = sc.likedSpawnTimerPending ∧
    (sc.step e).dislikedSpawnTimerPending = sc.dislikedSpawnTimerPending ∧
    (sc.step e).score = sc.score + sessionEventDelta e := by
  cases e with
  | spawnLiked js =>
    refine ⟨rfl, rfl, rfl, ?_⟩
    show sc.score = sc.score + 0
    omega
  | spawnDisliked js =>
    refine ⟨rfl, rfl, rfl, ?_⟩
    show sc.score = sc.score + 0
    omega
  | catchLiked s => exact ⟨rfl, rfl, rfl, rfl⟩
  | hitDisliked s => exact ⟨rfl, rfl, rfl, rfl⟩
  | platformHit s =>
    simp only [Scene.step, Scene.itemHitsPlatform]
    split_ifs <;> refine ⟨rfl, rfl, rfl, ?_⟩ <;> (show sc.score = sc.score + 0; omega)

lemma scene_runEvents_frame : ∀ (es : List SessionEvent) (sc : Scene),
    (sc.runEvents es).gameTimerPending = sc.gameTimerPending ∧
    (sc.runEvents es).likedSpawnTimerPending = sc.likedSpawnTimerPending ∧
    (sc.runEvents es).dislikedSpawnTimerPending = sc.dislikedSpawnTimerPending ∧
    (sc.runEvents es).score
      = sc.score + GAME_CONFIG.SCORE_LIKED_ITEM * (countCatches es : Int)
        + GAME_CONFIG.SCORE_DISLIKED_ITEM * (countHits es : Int) := by
  intro es
  induction es with
  | nil =>
    intro sc
    refine ⟨rfl, rfl, rfl, ?_⟩
    show sc.score = sc.score + 10 * ((0 : Nat) : Int) + (-5) * ((0 : Nat) : Int)
    omega
  | cons e tl ih =>
    intro sc
    have hstep := scene_step_frame sc e
    have htl := ih (sc.step e)
    have hrw : sc.runEvents (e :: tl) = (sc.step e).runEvents tl := rfl
    rw [hrw]
    refine ⟨htl.1.trans hstep.1, htl.2.1.trans hstep.2.1, htl.2.2.1.trans hstep.2.2.1, ?_⟩
    rw [htl.2.2.2, hstep.2.2.2]
    have hcc : countCatches (e :: tl)
        = countCatches tl + (if (match e with | .catchLiked _ => true | _ => false)
            then 1 else 0) := List.countP_cons _ _ _
    have hch : countHits (e :: tl)
        = countHits tl + (if (match e with | .hitDisliked _ => true | _ => false)
            then 1 else 0) := List.countP_cons _ _ _
    rw [hcc, hch]
    cases e <;> simp [sessionEventDelta, GAME_CONFIG] <;> ring

/-- **C6.** In a session started by `startGame` with non-empty liked and
disliked key lists, all three timers (countdown and both spawns) are
pending throughout the session; when the countdown fires,
`handleGameOver` emits `game-over` whose payload score is exactly the
running total of `SCORE_LIKED_ITEM = +10` per liked catch and
`SCORE_DISLIKED_ITEM = -5` per disliked hit (the score starts at `0`);
and afterwards none of the three timers is pending and the terminal flag
is set. -/
theorem countdown_gameOver_score (likes dislikes : List String)
    (hl : likes ≠ []) (hd : dislikes ≠ []) (jsL jsD : Nat → Nat)
    (es : List SessionEvent) :
    (((Scene.init.startGame likes dislikes jsL jsD).runEvents es).handleGameOver).emitted
      = ((Scene.init.startGame likes dislikes jsL jsD).runEvents es).emitted
        ++ [GameEvent.gameOverEvent
            (GAME_CONFIG.SCORE_LIKED_ITEM * (countCatches es : Int)
              + GAME_CONFIG.SCORE_DISLIKED_ITEM * (countHits es : Int))] ∧
    ((Scene.init.startGame likes dislikes jsL jsD).runEvents es).gameTimerPending = true ∧
    ((Scene.init.startGame likes dislikes jsL jsD).runEvents es).likedSpawnTimerPending
      = true ∧
    ((Scene.init.startGame likes dislikes jsL jsD).runEvents es).dislikedSpawnTimerPending
      = true ∧
    (((Scene.init.startGame likes dislikes jsL jsD).runEvents es).handleGameOver).gameTimerPending
      = false ∧
    (((Scene.init.startGame likes dislikes jsL jsD).runEvents
        es).handleGameOver).likedSpawnTimerPending = false ∧
    (((Scene.init.startGame likes dislikes jsL jsD).runEvents
        es).handleGameOver).dislikedSpawnTimerPending = false ∧
    (((Scene.init.startGame likes dislikes jsL jsD).runEvents es).handleGameOver).gameOver
      = true := by
  have hframe := scene_runEvents_frame es (Scene.init.startGame likes dislikes jsL jsD)
  refine ⟨?_, hframe.1.trans rfl, hframe.2.1.trans rfl, hframe.2.2.1.trans rfl,
    rfl, rfl, rfl, rfl⟩
  show ((Scene.init.startGame likes dislikes jsL jsD).runEvents es).emitted
      ++ [GameEvent.gameOverEvent
          (((Scene.init.startGame likes dislikes jsL jsD).runEvents es).score)] = _
  rw [hframe.2.2.2]
  have hs0 : (Scene.init.startGame likes dislikes jsL jsD).score = 0 := rfl
  rw [hs0, Int.zero_add]

/-- Witness for C6: a concrete session over `likes = ["A", "B"]`,
`dislikes = ["X"]` with one liked catch and one disliked hit. -/
theorem countdown_gameOver_score_witness :
    (((Scene.init.startGame ["A", "B"] ["X"] (fun _ => 0) (fun _ => 0)).runEvents
        [SessionEvent.catchLiked (true, 0),
          SessionEvent.hitDisliked (false, 0)]).handleGameOver).emitted
      = ((Scene.init.startGame ["A", "B"] ["X"] (fun _ => 0) (fun _ => 0)).runEvents
          [SessionEvent.catchLiked (true, 0),
            SessionEvent.hitDisliked (false, 0)]).emitted
        ++ [GameEvent.gameOverEvent
            (GAME_CONFIG.SCORE_LIKED_ITEM
                * (countCatches [SessionEvent.catchLiked (true, 0),
                    SessionEvent.hitDisliked (false, 0)] : Int)
              + GAME_CONFIG.SCORE_DISLIKED_ITEM
                * (countHits [SessionEvent.catchLiked (true, 0),
                    SessionEvent.hitDisliked (false, 0)] : Int))] :=
  (countdown_gameOver_score ["A", "B"] ["X"] (by decide) (by decide) (fun _ => 0)
    (fun _ => 0) [SessionEvent.catchLiked (true, 0),
      SessionEvent.hitDisliked (false, 0)]).1

/-- **C7.** Every `collectLikedItem` call grows the collected-liked set by
`Set.add` and emits `update-itemList` carrying exactly the ordered
materialization (insertion order = order of first collection) of that set;
in particular, from an empty collected set, catching two sprites with
distinct item names `A` then `B` emits the event twice, with payloads
`[A]` then `[A, B]`. -/
theorem updateItemList_emission (sc : Scene) (s1 s2 : Sprite)
    (hne : sc.itemName s1 ≠ sc.itemName s2) (h0 : sc.collectedLiked = []) :
    (∀ (t : Scene) (u : Sprite),
        (t.collectLikedItem u).collectedLiked
            = setInsert t.collectedLiked (t.itemName u) ∧
        (t.collectLikedItem u).emitted
            = t.emitted ++ [GameEvent.updateItemList
                (setInsert t.collectedLiked (t.itemName u))]) ∧
    ((sc.collectLikedItem s1).collectLikedItem s2).emitted
      = sc.emitted ++ [GameEvent.updateItemList [sc.itemName s1],
          GameEvent.updateItemList [sc.itemName s1, sc.itemName s2]] := by
  have hgen : ∀ (t : Scene) (u : Sprite),
      (t.collectLikedItem u).collectedLiked
          = setInsert t.collectedLiked (t.itemName u) ∧
      (t.collectLikedItem u).emitted
          = t.emitted ++ [GameEvent.updateItemList
              (setInsert t.collectedLiked (t.itemName u))] :=
    fun t u => ⟨rfl, rfl⟩
  refine ⟨hgen, ?_⟩
  have h1 : (sc.collectLikedItem s1).collectedLiked = [sc.itemName s1] := by
    rw [(hgen sc s1).1, h0]
    simp [setInsert]
  have hname : (sc.collectLikedItem s1).itemName = sc.itemName := rfl
  have hemit1 : (sc.collectLikedItem s1).emitted
      = sc.emitted ++ [GameEvent.updateItemList [sc.itemName s1]] := by
    rw [(hgen sc s1).2, h0]
    simp [setInsert]
  have hins : setInsert [sc.itemName s1] (sc.itemName s2)
      = [sc.itemName s1, sc.itemName s2] := by
    simp [setInsert, Ne.symm hne]
  rw [(hgen (sc.collectLikedItem s1) s2).2, hname, h1, hins, hemit1,
    List.append_assoc]
  rfl

/-- Witness for C7: a concrete scene whose sprite `(true, 0)` is named
`"A"` and every other sprite `"B"`. -/
theorem updateItemList_emission_witness :
    (({ Scene.init with
          itemName := fun t => if t = ((true, 0) : Sprite) then "A" else "B"
        }.collectLikedItem (true, 0)).collectLikedItem (true, 1)).emitted
      = [GameEvent.updateItemList ["A"], GameEvent.updateItemList ["A", "B"]] :=
  (updateItemList_emission
    { Scene.init with
        itemName := fun t => if t = ((true, 0) : Sprite) then "A" else "B" }
    (true, 0) (true, 1) (by decide) rfl).2

/-- **C9.** A falling sprite reaching the platform uncaught is released
back to the pool of its own category group, and nothing else changes:
score, both collected-item sets and the emission log are untouched, the
other category's pool is untouched, and a sprite in neither group leaves
the scene entirely unchanged. -/
theorem itemHitsPlatform_only_releases (sc : Scene) (s : Sprite) :
    (sc.itemHitsPlatform s).score = sc.score ∧
    (sc.itemHitsPlatform s).collectedLiked = sc.collectedLiked ∧
    (sc.itemHitsPlatform s).collectedDisliked = sc.collectedDisliked ∧
    (sc.itemHitsPlatform s).emitted = sc.emitted ∧
    (s ∈ sc.likedGroup →
      (sc.itemHitsPlatform s).likedPool = sc.likedPool.release s.2 ∧
      (sc.itemHitsPlatform s).dislikedPool = sc.dislikedPool) ∧
    (s ∉ sc.likedGroup → s ∈ sc.dislikedGroup →
      (sc.itemHitsPlatform s).dislikedPool = sc.dislikedPool.release s.2 ∧
      (sc.itemHitsPlatform s).likedPool = sc.likedPool) ∧
    (s ∉ sc.likedGroup → s ∉ sc.dislikedGroup → sc.itemHitsPlatform s = sc) := by
  unfold Scene.itemHitsPlatform
  by_cases h1 : s ∈ sc.likedGroup
  · rw [if_pos h1]
    exact ⟨rfl, rfl, rfl, rfl, fun _ => ⟨rfl, rfl⟩, fun hn => absurd h1 hn,
      fun hn _ => absurd h1 hn⟩
  · rw [if_neg h1]
    by_cases h2 : s ∈ sc.dislikedGroup
    · rw [if_pos h2]
      exact ⟨rfl, rfl, rfl, rfl, fun hc => absurd hc h1, fun _ _ => ⟨rfl, rfl⟩,
        fun _ hc => absurd h2 hc⟩
    · rw [if_neg h2]
      exact ⟨rfl, rfl, rfl, rfl, fun hc => absurd hc h1, fun _ hc => absurd hc h2,
        fun _ _ => rfl⟩

/-- Witness for C9: a sprite in neither group leaves the freshly
initialised scene unchanged. -/
theorem itemHitsPlatform_only_releases_witness :
    Scene.init.itemHitsPlatform (true, 0) = Scene.init :=
  (itemHitsPlatform_only_releases Scene.init (true, 0)).2.2.2.2.2.2 (by decide) (by decide)

/-! ## Properties of `generateUniqueHash` -/

lemma hashLoop_spec : ∀ (s : List Nat) (need : Nat) (acc out : List Char)
    (rest : List Nat), hashLoop s need acc = some (out, rest) →
    out.length = acc.length + need ∧ ∀ c ∈ out, c ∈ acc ∨ c ∈ hashChars := by
  intro s
  induction s with
  | nil =>
    intro need acc out rest h
    cases need with
    | zero =>
      rw [show hashLoop [] 0 acc = some (acc, []) from rfl, Option.some.injEq,
        Prod.mk.injEq] at h
      obtain ⟨rfl, rfl⟩ := h
      exact ⟨by omega, fun c hc => Or.inl hc⟩
    | succ m =>
      rw [show hashLoop [] (m + 1) acc = none from rfl] at h
      cases h
  | cons b s ih =>
    intro need acc out rest h
    cases need with
    | zero =>
      rw [show hashLoop (b :: s) 0 acc = some (acc, b :: s) from rfl,
        Option.some.injEq, Prod.mk.injEq] at h
      obtain ⟨rfl, rfl⟩ := h
      exact ⟨by omega, fun c hc => Or.inl hc⟩
    | succ m =>
      rw [show hashLoop (b :: s) (m + 1) acc
          = if b < hashMaxValid then
              hashLoop s m (acc ++ [hashChars.getD (b % hashChars.length) ' '])
            else hashLoop s (m + 1) acc from rfl] at h
      by_cases hb : b < hashMaxValid
      · rw [if_pos hb] at h
        have hrec := ih m (acc ++ [hashChars.getD (b % hashChars.length) ' ']) out rest h
        have hlt : b % hashChars.length < hashChars.length := Nat.mod_lt _ (by decide)
        have hchar : hashChars.getD (b % hashChars.length) ' ' ∈ hashChars := by
          rw [getD_eq_getElem_of_lt hashChars _ ' ' hlt]
          exact List.getElem_mem hlt
        constructor
        · have hl := hrec.1
          rw [List.length_append] at hl
          simp at hl
          omega
        · intro c hc
          rcases hrec.2 c hc with hacc | hh
          · rw [List.mem_append] at hacc
            rcases hacc with hin | hin
            · exact Or.inl hin
            · rw [List.mem_singleton] at hin
              subst hin
              exact Or.inr hchar
          · exact Or.inr hh
      · rw [if_neg hb] at h
        exact ih (m + 1) acc out rest h

lemma hashChars_gameCode : ∀ c ∈ hashChars, isGameCodeChar c = true := by decide

/-- **C8.** Every string `generateUniqueHash(length)` produces has exactly
`length` characters, each drawn from the fixed 62-symbol alphabet
`A-Z a-z 0-9`; `maxValid = 256 - (256 % 62) = 248` and any drawn byte
`≥ 248` is discarded (the loop continues on the rest of the stream with
the same number of characters still needed, the byte contributing
nothing); and for the default length 10 every produced code passes
`validateGameCode` (matches `^[A-Za-z0-9]{10}$`), so generator and
boundary validator round-trip. -/
theorem generateUniqueHash_roundtrip :
    (∀ (s : List Nat) (len : Nat) (r : String) (rest : List Nat),
        generateUniqueHash s len = some (r, rest) →
        r.length = len ∧ ∀ c ∈ r.data, c ∈ hashChars) ∧
    hashMaxValid = 248 ∧
    (∀ (b : Nat) (s : List Nat) (need : Nat) (acc : List Char), hashMaxValid ≤ b →
        hashLoop (b :: s) (need + 1) acc = hashLoop s (need + 1) acc) ∧
    (∀ (s : List Nat) (r : String) (rest : List Nat),
        generateUniqueHash s 10 = some (r, rest) →
        validateGameCode r = Except.ok ()) := by
  have hmain : ∀ (s : List Nat) (len : Nat) (r : String) (rest : List Nat),
      generateUniqueHash s len = some (r, rest) →
      r.length = len ∧ ∀ c ∈ r.data, c ∈ hashChars := by
    intro s len r rest h
    unfold generateUniqueHash at h
    cases hloop : hashLoop s len [] with
    | none =>
      rw [hloop] at h
      cases h
    | some p =>
      rw [hloop] at h
      simp only [Option.map_some', Option.some.injEq, Prod.mk.injEq] at h
      obtain ⟨hr, hrest⟩ := h
      have hsp := hashLoop_spec s len [] p.1 p.2 (by rw [hloop])
      constructor
      · rw [← hr]
        show p.1.length = len
        have := hsp.1
        simpa using this
      · intro c hc
        rw [← hr] at hc
        rcases hsp.2 c hc with hnil | hmem
        · cases hnil
        · exact hmem
  refine ⟨hmain, by decide, ?_, ?_⟩
  · intro b s need acc hb
    show (if b < hashMaxValid then
        hashLoop s need (acc ++ [hashChars.getD (b % hashChars.length) ' '])
      else hashLoop s (need + 1) acc) = hashLoop s (need + 1) acc
    rw [if_neg (by omega)]
  · intro s r rest h
    have h1 := hmain s 10 r rest h
    have hall : r.data.all isGameCodeChar = true := by
      rw [List.all_eq_true]
      intro c hc
      exact hashChars_gameCode c (h1.2 c hc)
    unfold validateGameCode gameCodeRegexTest
    rw [h1.1, hall]
    rfl

/-- Witness for C8: a concrete entropy stream (containing a discarded byte
`250`) produces a 10-character code that passes the boundary validator. -/
theorem generateUniqueHash_roundtrip_witness :
    validateGameCode "DBAOJKLMNO" = Except.ok () :=
  generateUniqueHash_roundtrip.2.2.2 [65, 250, 1, 62, 200, 9, 10, 11, 12, 13, 14, 15]
    "DBAOJKLMNO" [15] (by decide)

end SecretRudolph
